import Mathlib

/-!
Shallow embedding of the roguelike core (src/): tile and entity data model,
GameMap spatial queries, the action-resolution engine (Move / Melee / Bump /
Wait / Escape), the Fighter hp setter and death transition, the HostileEnemy
AI with its congestion-weighted pathfinding, the FOV/explored bookkeeping of
the Engine, and the procedural dungeon generator.

Python mutation is modelled by explicit state passing: an Engine-level
operation is a function GameState -> GameState.  Object identity of entities
(Python references into the GameMap.entities set) is modelled by a numeric
eid field; mutating one entity object is updating the list entry carrying
that eid.  Lines printed via print() are collected in a stdout field, and
messages sent to the message-log collaborator in a message_log field.
-/

namespace Roguelike

/-- Modelled from the spec: render_order.py is content outside src; the spec
describes a render-priority tier with corpses beneath living actors. -/
inductive RenderOrder
  | corpse
  | item
  | actor
deriving DecidableEq

/-- Fighter component (src/components/fighter.py): max_hp, stored _hp,
defense, power.  The hp field is the stored _hp. -/
structure Fighter where
  max_hp : Int
  hp : Int
  defense : Int
  power : Int
deriving DecidableEq

/-- AI strategy tag: the only concrete strategy in src/components/ai.py is
HostileEnemy. -/
inductive AIKind
  | hostile
deriving DecidableEq

/-- AI component state: the strategy tag plus the stored path of
HostileEnemy (src/components/ai.py). -/
structure AIState where
  kind : AIKind
  path : List (Int × Int)
deriving DecidableEq

/-- Entity (src/entity.py): position, glyph, colour, name, blocks_movement
flag, render-priority tier, plus the optional Actor components (fighter, ai).
An entity is an Actor exactly when it carries a Fighter component; a dead
actor keeps its Fighter but has ai detached.  The eid field models Python
object identity within the owning map's entity set. -/
structure Entity where
  eid : Nat
  x : Int
  y : Int
  char : String
  color : Nat × Nat × Nat
  name : String
  blocks_movement : Bool
  render_order : RenderOrder
  fighter : Option Fighter
  ai : Option AIState
deriving DecidableEq

/-- Python isinstance(entity, Actor): in this embedding an entity is an
Actor exactly when it has a Fighter component. -/
def Entity.isActor (e : Entity) : Bool :=
  e.fighter.isSome

/-- Actor.is_alive (src/entity.py): bool(self.fighter.hp > 0). -/
def Entity.is_alive (e : Entity) : Bool :=
  match e.fighter with
  | some f => decide (0 < f.hp)
  | none => false

/-- Tile flags (tile_types.py is content outside src; modelled from the spec:
per-cell walkable/transparent flags, visual attributes omitted as
presentation data). -/
structure Tile where
  walkable : Bool
  transparent : Bool
deriving DecidableEq

/-- Floor tile: walkable and transparent. -/
def floorTile : Tile := ⟨true, true⟩

/-- Wall tile: neither walkable nor transparent. -/
def wallTile : Tile := ⟨false, false⟩

/-- GameMap (src/game_map.py): dimensions, tile grid, visible and explored
boolean grids, and the entity collection.  Grids are total functions on
integer coordinates; the Python numpy arrays are their restriction to
in-bounds cells.  The entity set is modelled as a list whose order gives the
deterministic iteration order of the queries. -/
structure GameMap where
  width : Int
  height : Int
  tiles : Int → Int → Tile
  visible : Int → Int → Bool
  explored : Int → Int → Bool
  entities : List Entity

/-- GameMap.in_bounds (src/game_map.py): 0 <= x < width and 0 <= y < height. -/
def GameMap.in_bounds (g : GameMap) (x y : Int) : Bool :=
  decide (0 ≤ x) && decide (x < g.width) && decide (0 ≤ y) && decide (y < g.height)

/-- GameMap.get_blocking_entity_at_location (src/game_map.py): the first
entity in iteration order with blocks_movement set at that cell. -/
def GameMap.get_blocking_entity_at_location (g : GameMap) (location_x location_y : Int) :
    Option Entity :=
  g.entities.find? fun e =>
    e.blocks_movement && e.x == location_x && e.y == location_y

/-- GameMap.actors property (src/game_map.py): the entities that are Actors
and are alive, in iteration order. -/
def GameMap.actorsList (g : GameMap) : List Entity :=
  g.entities.filter fun e => e.isActor && e.is_alive

/-- GameMap.get_actor_at_location (src/game_map.py): the first living actor
at that cell. -/
def GameMap.get_actor_at_location (g : GameMap) (x y : Int) : Option Entity :=
  g.actorsList.find? fun a => a.x == x && a.y == y

/-- Lookup of an entity object by identity inside the map's collection. -/
def getEntity (g : GameMap) (eid : Nat) : Option Entity :=
  g.entities.find? fun e => e.eid == eid

/-- Mutation of the entity object with the given identity. -/
def updateEntity (g : GameMap) (eid : Nat) (f : Entity → Entity) : GameMap :=
  { g with entities := g.entities.map fun e => if e.eid = eid then f e else e }

/-- Message (src/message_log.py): plain text, colour, stack count. -/
structure Message where
  plain_text : String
  fg : Nat × Nat × Nat
  count : Nat
deriving DecidableEq

/-- MessageLog (src/message_log.py). -/
structure MessageLog where
  messages : List Message
deriving DecidableEq

/-- MessageLog.add_message (src/message_log.py): if stacking is enabled and
the text equals the last message's text, bump its count, else append a fresh
message with count 1. -/
def MessageLog.add_message (log : MessageLog) (text : String) (fg : Nat × Nat × Nat)
    (stack : Bool) : MessageLog :=
  match log.messages.getLast? with
  | some m =>
    if stack ∧ text = m.plain_text then
      { messages := log.messages.dropLast ++ [{ m with count := m.count + 1 }] }
    else
      { messages := log.messages ++ [⟨text, fg, 1⟩] }
  | none => { messages := log.messages ++ [⟨text, fg, 1⟩] }

/-- Modelled from the spec: colour.py is palette content outside src; the
death messages carry a player-death colour and an enemy-death colour. -/
def colour_player_die : Nat × Nat × Nat := (255, 48, 48)

/-- Modelled from the spec: enemy-death message colour from colour.py. -/
def colour_enemy_die : Nat × Nat × Nat := (255, 160, 48)

/-- Which event handler the engine currently runs (src/input_handlers.py):
the main game handler, or the game-over handler installed on player death. -/
inductive HandlerKind
  | mainGame
  | gameOver
deriving DecidableEq

/-- Engine-level state (src/engine.py): the game map, the player reference
(by identity), the active event handler, the message log collaborator, and
the lines written via print().  The message_log attribute is referenced by
Fighter.die; its wiring onto the Engine lives outside src and follows the
spec's message/log collaborator interface. -/
structure GameState where
  game_map : GameMap
  player : Nat
  event_handler : HandlerKind
  message_log : MessageLog
  stdout : List String

/-- Python str.capitalize(): first character uppercased, the rest
lowercased. -/
def strCapitalize (s : String) : String :=
  match s.data with
  | [] => ""
  | c :: cs => String.mk (c.toUpper :: cs.map Char.toLower)

/-- Fighter.die (src/components/fighter.py, lines 59-78): choose the death
message and, for the player, install the game-over handler; then mutate the
entity in place into a corpse (glyph %, red colour, non-blocking, AI
detached, renamed, corpse render priority) and emit the death message. -/
def fighterDie (s : GameState) (eid : Nat) : GameState :=
  match getEntity s.game_map eid with
  | none => s
  | some e =>
    let death_message := if s.player = eid then "You died!" else e.name ++ " is dead!"
    let death_message_colour := if s.player = eid then colour_player_die else colour_enemy_die
    let handler := if s.player = eid then HandlerKind.gameOver else s.event_handler
    { s with
      game_map := updateEntity s.game_map eid fun e' =>
        { e' with
          char := "%"
          color := (191, 0, 0)
          blocks_movement := false
          ai := none
          name := "remains of " ++ e'.name
          render_order := RenderOrder.corpse }
      event_handler := handler
      message_log := s.message_log.add_message death_message death_message_colour true }

/-- Fighter.hp setter (src/components/fighter.py, lines 45-57): store
max(0, min(value, max_hp)); if the stored hp is <= 0 and the entity still
has an AI component, run the death transition. -/
def fighterSetHp (s : GameState) (eid : Nat) (value : Int) : GameState :=
  match getEntity s.game_map eid with
  | none => s
  | some e =>
    match e.fighter with
    | none => s
    | some f =>
      let newHp := max 0 (min value f.max_hp)
      let s1 := { s with
        game_map := updateEntity s.game_map eid fun e' =>
          { e' with fighter := e'.fighter.map fun fgt => { fgt with hp := newHp } } }
      if newHp ≤ 0 ∧ e.ai.isSome then fighterDie s1 eid else s1

/-- MeleeAction.perform (src/actions.py, lines 114-134): find the living
actor at the destination; with no target, silently return.  Otherwise
damage = attacker power - defender defense; if positive, subtract it through
the hp setter and print a hit line, else print a no-damage line. -/
def meleePerform (s : GameState) (eid : Nat) (dx dy : Int) : GameState :=
  match getEntity s.game_map eid with
  | none => s
  | some e =>
    match s.game_map.get_actor_at_location (e.x + dx) (e.y + dy) with
    | none => s
    | some target =>
      match e.fighter, target.fighter with
      | some ef, some tf =>
        let damage := ef.power - tf.defense
        let attack_desc := strCapitalize e.name ++ " attacks " ++ target.name
        if 0 < damage then
          let s1 := fighterSetHp s target.eid (tf.hp - damage)
          { s1 with stdout := s1.stdout ++
              [attack_desc ++ " for " ++ toString damage ++ " hit points."] }
        else
          { s with stdout := s.stdout ++ [attack_desc ++ " but does no damage."] }
      | _, _ => s

/-- MovementAction.perform (src/actions.py, lines 137-159): silently return
when the destination is out of bounds, on a non-walkable tile, or occupied
by a blocking entity; otherwise shift the entity by (dx, dy). -/
def movePerform (s : GameState) (eid : Nat) (dx dy : Int) : GameState :=
  match getEntity s.game_map eid with
  | none => s
  | some e =>
    let dest_x := e.x + dx
    let dest_y := e.y + dy
    if ¬ s.game_map.in_bounds dest_x dest_y then s
    else if ¬ (s.game_map.tiles dest_x dest_y).walkable then s
    else if (s.game_map.get_blocking_entity_at_location dest_x dest_y).isSome then s
    else { s with
      game_map := updateEntity s.game_map eid fun e' =>
        { e' with x := e'.x + dx, y := e'.y + dy } }

/-- BumpAction.perform (src/actions.py, lines 162-174): at perform time, if
a living actor occupies the destination delegate to Melee, else to Move. -/
def bumpPerform (s : GameState) (eid : Nat) (dx dy : Int) : GameState :=
  match getEntity s.game_map eid with
  | none => s
  | some e =>
    if (s.game_map.get_actor_at_location (e.x + dx) (e.y + dy)).isSome then
      meleePerform s eid dx dy
    else
      movePerform s eid dx dy

/-! Pathfinding (src/components/ai.py, BaseAI.get_path_to).  The per-turn
cost field is built from the walkable flags and the blocking entities; the
route is then found by tcod's Dijkstra pathfinder over a SimpleGraph with
cardinal edge factor 2 and diagonal edge factor 3.  The external tcod.path
machinery is modelled by an executable relaxation-based shortest-path search
over the same weighted 8-neighbour grid, reconstructing the root-to-target
path from predecessor links and then dropping the starting cell. -/

/-- One entity's contribution to the cost field: a blocking entity standing
on a nonzero cell adds 10 to that cell. -/
def costStep (c : Int → Int → Nat) (e : Entity) : Int → Int → Nat :=
  if e.blocks_movement ∧ c e.x e.y ≠ 0 then
    fun x y => if x = e.x ∧ y = e.y then c x y + 10 else c x y
  else c

/-- Cost field of BaseAI.get_path_to: start from walkable-as-1 (else 0) and
fold every entity's crowding contribution over it. -/
def costField (g : GameMap) : Int → Int → Nat :=
  g.entities.foldl costStep (fun x y => if (g.tiles x y).walkable then 1 else 0)

/-- Number of blocking entities of a list standing at a cell. -/
def countBlockersAt (l : List Entity) (x y : Int) : Nat :=
  (l.filter fun e => e.blocks_movement && e.x == x && e.y == y).length

/-- Cardinal step offsets of the 8-neighbour grid. -/
def cardinalOffsets : List (Int × Int) := [(-1, 0), (1, 0), (0, -1), (0, 1)]

/-- Diagonal step offsets of the 8-neighbour grid. -/
def diagonalOffsets : List (Int × Int) := [(-1, -1), (-1, 1), (1, -1), (1, 1)]

/-- Weight of a step into cell v: the destination's cost-field value times
the SimpleGraph factor, 2 for a cardinal step and 3 for a diagonal step. -/
def edgeWeight (cost : Int → Int → Nat) (isDiag : Bool) (v : Int × Int) : Nat :=
  (if isDiag then 3 else 2) * cost v.1 v.2

/-- Distance and predecessor maps of the shortest-path search. -/
structure Dij where
  dist : Int × Int → Option Nat
  pred : Int × Int → Option (Int × Int)

/-- Relax the edge from u into u + off: the edge exists when the destination
is in bounds and has nonzero cost; it improves the destination when the
candidate distance through u is smaller than the recorded one. -/
def relaxEdge (g : GameMap) (cost : Int → Int → Nat) (d : Dij) (u : Int × Int)
    (off : Int × Int) (isDiag : Bool) : Dij :=
  let v := (u.1 + off.1, u.2 + off.2)
  if g.in_bounds v.1 v.2 ∧ cost v.1 v.2 ≠ 0 then
    match d.dist u with
    | none => d
    | some du =>
      let cand := du + edgeWeight cost isDiag v
      let better : Bool :=
        match d.dist v with
        | none => true
        | some dv => decide (cand < dv)
      if better then
        { dist := fun c => if c = v then some cand else d.dist c
          pred := fun c => if c = v then some u else d.pred c }
      else d
  else d

/-- Relax all eight outgoing edges of a cell. -/
def relaxCell (g : GameMap) (cost : Int → Int → Nat) (d : Dij) (u : Int × Int) : Dij :=
  let d1 := cardinalOffsets.foldl (fun d' off => relaxEdge g cost d' u off false) d
  diagonalOffsets.foldl (fun d' off => relaxEdge g cost d' u off true) d1

/-- All in-bounds cells of the map, row by row. -/
def allCells (g : GameMap) : List (Int × Int) :=
  (List.range g.width.toNat).flatMap fun x =>
    (List.range g.height.toNat).map fun y => ((x : Int), (y : Int))

/-- One full relaxation round over every cell. -/
def relaxRound (g : GameMap) (cost : Int → Int → Nat) (d : Dij) : Dij :=
  (allCells g).foldl (relaxCell g cost) d

/-- Iterated relaxation rounds. -/
def relaxRounds (g : GameMap) (cost : Int → Int → Nat) : Nat → Dij → Dij
  | 0, d => d
  | n + 1, d => relaxRounds g cost n (relaxRound g cost d)

/-- Shortest-path data from the root: initialise the root at distance 0 with
no predecessor and run one relaxation round per cell of the map. -/
def dijkstraRun (g : GameMap) (cost : Int → Int → Nat) (root : Int × Int) : Dij :=
  relaxRounds g cost (allCells g).length
    { dist := fun c => if c = root then some 0 else none
      pred := fun _ => none }

/-- Walk the predecessor links back from a cell, producing the chain in
root-to-cell order.  Fuel bounds the walk by the number of cells. -/
def predWalk (pred : Int × Int → Option (Int × Int)) : Nat → Int × Int → List (Int × Int)
  | 0, c => [c]
  | fuel + 1, c =>
    match pred c with
    | none => [c]
    | some p => predWalk pred fuel p ++ [c]

/-- Model of Pathfinder.path_to: the path from the root to the target cell,
both endpoints included, read off the shortest-path predecessor links. -/
def pathTo (g : GameMap) (cost : Int → Int → Nat) (root target : Int × Int) :
    List (Int × Int) :=
  predWalk (dijkstraRun g cost root).pred (allCells g).length target

/-- Invariant of the shortest-path data: the root sits at distance 0 with no
predecessor, and cells of zero cost (impassable) other than the root are
never reached nor given a predecessor. -/
def DijInv (root : Int × Int) (cost : Int → Int → Nat) (d : Dij) : Prop :=
  d.dist root = some 0 ∧ d.pred root = none ∧
    ∀ c : Int × Int, c ≠ root → cost c.1 c.2 = 0 → d.dist c = none ∧ d.pred c = none

/-- BaseAI.get_path_to (src/components/ai.py, lines 25-59): build the cost
field, run the pathfinder from the entity's cell, and return the path with
the starting point removed. -/
def getPathTo (s : GameState) (e : Entity) (dest_x dest_y : Int) : List (Int × Int) :=
  let cost := costField s.game_map
  (pathTo s.game_map cost (e.x, e.y) (dest_x, dest_y)).drop 1

/-- Store a freshly computed path into the entity's AI component. -/
def setAiPath (s : GameState) (eid : Nat) (p : List (Int × Int)) : GameState :=
  { s with
    game_map := updateEntity s.game_map eid fun e =>
      { e with ai := e.ai.map fun a => { a with path := p } } }

/-- Tail of HostileEnemy.perform: if a stored path remains, pop its first
cell and move toward it, else wait. -/
def aiStepAlongPath (s : GameState) (eid : Nat) : GameState :=
  match getEntity s.game_map eid with
  | none => s
  | some e =>
    match e.ai with
    | none => s
    | some a =>
      match a.path with
      | [] => s
      | (dest_x, dest_y) :: rest =>
        let s1 := setAiPath s eid rest
        movePerform s1 eid (dest_x - e.x) (dest_y - e.y)

/-- HostileEnemy.perform (src/components/ai.py, lines 79-105): when the
enemy's cell is inside the player's visible set, attack if the Chebyshev
distance to the player is at most 1, else recompute the stored path; then
consume one step of the stored path, or wait if none remains. -/
def hostileEnemyPerform (s : GameState) (eid : Nat) : GameState :=
  match getEntity s.game_map eid, getEntity s.game_map s.player with
  | some e, some target =>
    let dx := target.x - e.x
    let dy := target.y - e.y
    let distance : Int := max |dx| |dy|
    if s.game_map.visible e.x e.y then
      if distance ≤ 1 then meleePerform s eid dx dy
      else aiStepAlongPath (setAiPath s eid (getPathTo s e target.x target.y)) eid
    else aiStepAlongPath s eid
  | _, _ => s

/-! Turn sequencing (src/engine.py and src/input_handlers.py). -/

/-- Kinds of player intents produced by the input layer
(src/input_handlers.py MainGameEventHandler.ev_keydown yields Bump, Wait and
Escape; Move and Melee complete the closed action set of src/actions.py). -/
inductive ActionKind
  | escapeA
  | waitA
  | bumpA (dx dy : Int)
  | moveA (dx dy : Int)
  | meleeA (dx dy : Int)

/-- Action.perform dispatch (src/actions.py): EscapeAction raises SystemExit
(the error outcome); every other action returns the mutated state. -/
def actionPerform (s : GameState) (eid : Nat) : ActionKind → Except Unit GameState
  | ActionKind.escapeA => Except.error ()
  | ActionKind.waitA => Except.ok s
  | ActionKind.bumpA dx dy => Except.ok (bumpPerform s eid dx dy)
  | ActionKind.moveA dx dy => Except.ok (movePerform s eid dx dy)
  | ActionKind.meleeA dx dy => Except.ok (meleePerform s eid dx dy)

/-- Engine.handle_enemy_turns (src/engine.py, lines 38-47): iterate the
entities other than the player and print one placeholder line for each; no
other state is touched and no AI behaviour is invoked. -/
def handleEnemyTurns (s : GameState) : GameState :=
  (s.game_map.entities.filter fun e => e.eid ≠ s.player).foldl
    (fun acc e =>
      { acc with stdout := acc.stdout ++
          ["The " ++ e.name ++ " wonders when it will get to take a real turn."] })
    s

/-- Engine.update_fov (src/engine.py, lines 73-83): recompute the visible
grid from the player's position with radius 6 over the transparency grid,
then fold it into explored with bitwise OR.  The external
tcod.map.compute_fov is taken as a parameter. -/
def updateFov (computeFov : (Int → Int → Bool) → Int × Int → Int → (Int → Int → Bool))
    (s : GameState) : GameState :=
  match getEntity s.game_map s.player with
  | none => s
  | some p =>
    let newVisible := computeFov (fun x y => (s.game_map.tiles x y).transparent) (p.x, p.y) 6
    { s with
      game_map := { s.game_map with
        visible := newVisible
        explored := fun x y => s.game_map.explored x y || newVisible x y } }

/-- MainGameEventHandler.handle_events, body for one dispatched action
(src/input_handlers.py, lines 109-125): perform the action, then run the
enemy turns, then recompute the FOV.  A SystemExit raised by the perform
(the Escape intent) propagates and skips the rest of the turn. -/
def handleOneAction (computeFov : (Int → Int → Bool) → Int × Int → Int → (Int → Int → Bool))
    (s : GameState) (a : ActionKind) : Except Unit GameState :=
  match actionPerform s s.player a with
  | Except.error u => Except.error u
  | Except.ok s1 => Except.ok (updateFov computeFov (handleEnemyTurns s1))

/-! Dungeon generation (src/procgen.py). -/

/-- Seedable random source: an abstract stream of natural draws with a
cursor.  Identical stream and parameters give identical output, which is the
reproducibility contract of the spec. -/
structure Rng where
  stream : Nat → Nat
  idx : Nat

/-- Draw the next raw value. -/
def Rng.next (r : Rng) : Nat × Rng :=
  (r.stream r.idx, { r with idx := r.idx + 1 })

/-- Python random.randint(a, b): a uniform integer in the inclusive range
[a, b], modelled by reducing a raw draw modulo the interval size. -/
def Rng.randint (r : Rng) (a b : Int) : Int × Rng :=
  let (n, r1) := r.next
  (a + Int.ofNat (n % (b - a + 1).toNat), r1)

/-- Python random.random() < num/den, modelled by testing a raw draw modulo
the denominator. -/
def Rng.chance (r : Rng) (num den : Nat) : Bool × Rng :=
  let (n, r1) := r.next
  (decide (n % den < num), r1)

/-- RectangularRoom (src/procgen.py, lines 29-97): top-left corner and
computed bottom-right corner. -/
structure RectangularRoom where
  x1 : Int
  y1 : Int
  x2 : Int
  y2 : Int
deriving DecidableEq

/-- RectangularRoom constructor: bottom-right corner is top-left plus the
sampled width and height. -/
def RectangularRoom.mkRoom (x y width height : Int) : RectangularRoom :=
  ⟨x, y, x + width, y + height⟩

/-- RectangularRoom.centre. -/
def RectangularRoom.centre (r : RectangularRoom) : Int × Int :=
  ((r.x1 + r.x2) / 2, (r.y1 + r.y2) / 2)

/-- RectangularRoom.inner membership: the interior slice
[x1+1, x2) x [y1+1, y2). -/
def RectangularRoom.innerContains (r : RectangularRoom) (x y : Int) : Prop :=
  r.x1 + 1 ≤ x ∧ x < r.x2 ∧ r.y1 + 1 ≤ y ∧ y < r.y2

instance (r : RectangularRoom) (x y : Int) : Decidable (r.innerContains x y) := by
  unfold RectangularRoom.innerContains; infer_instance

/-- RectangularRoom.intersects (src/procgen.py, lines 82-97). -/
def RectangularRoom.intersects (r other : RectangularRoom) : Bool :=
  decide (r.x1 ≤ other.x2) && decide (r.x2 ≥ other.x1) &&
  decide (r.y1 ≤ other.y2) && decide (r.y2 ≥ other.y1)

/-- Carve a room's interior to floor. -/
def carveRoom (g : GameMap) (room : RectangularRoom) : GameMap :=
  { g with tiles := fun x y =>
      if room.innerContains x y then floorTile else g.tiles x y }

/-- Carve a list of cells to floor. -/
def carveTiles (g : GameMap) (cells : List (Int × Int)) : GameMap :=
  cells.foldl
    (fun g' c =>
      { g' with tiles := fun x y => if x = c.1 ∧ y = c.2 then floorTile else g'.tiles x y })
    g

/-- Modelled from tcod.los.bresenham: the loop of the classic integer
Bresenham line algorithm, with fuel bounding the number of emitted cells. -/
def bresenhamLoop (x2 y2 sx sy dx dy : Int) :
    Nat → Int → Int → Int → List (Int × Int)
  | 0, x, y, _ => [(x, y)]
  | fuel + 1, x, y, err =>
    (x, y) ::
      (if x = x2 ∧ y = y2 then []
       else
         let e2 := 2 * err
         let xe := if e2 ≥ dy then (x + sx, err + dy) else (x, err)
         let ye := if e2 ≤ dx then (y + sy, xe.2 + dx) else (y, xe.2)
         bresenhamLoop x2 y2 sx sy dx dy fuel xe.1 ye.1 ye.2)

/-- Modelled from tcod.los.bresenham: all cells of the line from start to
finish, both endpoints included. -/
def bresenham (start finish : Int × Int) : List (Int × Int) :=
  let dx := |finish.1 - start.1|
  let dy := -|finish.2 - start.2|
  let sx : Int := if start.1 < finish.1 then 1 else -1
  let sy : Int := if start.2 < finish.2 then 1 else -1
  bresenhamLoop finish.1 finish.2 sx sy dx dy (dx - dy).toNat.succ start.1 start.2 (dx + dy)

/-- tunnel_between (src/procgen.py, lines 127-158): a coin flip picks the
bend corner, then two Bresenham segments join start, corner and end. -/
def tunnelBetween (r : Rng) (start finish : Int × Int) : List (Int × Int) × Rng :=
  let (coin, r1) := r.chance 1 2
  let corner := if coin then (finish.1, start.2) else (start.1, finish.2)
  (bresenham start corner ++ bresenham corner finish, r1)

/-- Modelled from the spec: entity_factories.py is content data outside src;
the spec's two monster tiers are an 80 percent tier and a 20 percent tier of
blocking, AI-driven actors. -/
def orcTemplate : Entity :=
  { eid := 0, x := 0, y := 0, char := "o", color := (63, 127, 63), name := "Orc"
    blocks_movement := true, render_order := RenderOrder.actor
    fighter := some ⟨10, 10, 0, 3⟩, ai := some ⟨AIKind.hostile, []⟩ }

/-- Modelled from the spec: the 20 percent monster tier of
entity_factories.py. -/
def trollTemplate : Entity :=
  { eid := 0, x := 0, y := 0, char := "T", color := (0, 127, 0), name := "Troll"
    blocks_movement := true, render_order := RenderOrder.actor
    fighter := some ⟨16, 16, 1, 4⟩, ai := some ⟨AIKind.hostile, []⟩ }

/-- Entity.spawn (src/entity.py): clone a template at a position and add the
clone to the map's collection; the fresh eid models the new object's
identity. -/
def spawnEntity (g : GameMap) (template : Entity) (x y : Int) (freshId : Nat) : GameMap :=
  { g with entities := g.entities ++ [{ template with eid := freshId, x := x, y := y }] }

/-- Body of one monster placement attempt of place_entities
(src/procgen.py, lines 115-124): sample an interior cell; if unoccupied,
spawn an orc with probability 0.8, else a troll. -/
def placeOneMonster (room : RectangularRoom) (g : GameMap) (r : Rng) (nextId : Nat) :
    GameMap × Rng × Nat :=
  let (x, r1) := r.randint (room.x1 + 1) (room.x2 - 1)
  let (y, r2) := r1.randint (room.y1 + 1) (room.y2 - 1)
  if g.entities.any (fun e => e.x == x && e.y == y) then (g, r2, nextId)
  else
    let (isOrc, r3) := r2.chance 8 10
    if isOrc then (spawnEntity g orcTemplate x y nextId, r3, nextId + 1)
    else (spawnEntity g trollTemplate x y nextId, r3, nextId + 1)

/-- place_entities (src/procgen.py, lines 100-124): sample the number of
monsters and run that many placement attempts. -/
def placeEntities (room : RectangularRoom) (g : GameMap) (r : Rng)
    (maximum_monsters : Int) (nextId : Nat) : GameMap × Rng × Nat :=
  let (n, r1) := r.randint 0 maximum_monsters
  (List.range n.toNat).foldl
    (fun acc _ => placeOneMonster room acc.1 acc.2.1 acc.2.2)
    (g, r1, nextId)

/-- Accumulated state of the generation loop. -/
structure GenState where
  rooms : List RectangularRoom
  dungeon : GameMap
  rng : Rng
  nextId : Nat

/-- Acceptance step of generate_dungeon (src/procgen.py, lines 198-215) for
one candidate room: reject it untouched when it intersects any accepted
room; otherwise carve its interior, place the player at its centre if it is
the first room or tunnel to the previous room's centre otherwise, place
monsters, and append it to the accepted list. -/
def placeRoom (max_monsters : Int) (player_eid : Nat) (st : GenState)
    (new_room : RectangularRoom) : GenState :=
  if st.rooms.any (fun other_room => new_room.intersects other_room) then st
  else
    let g1 := carveRoom st.dungeon new_room
    let step :=
      match st.rooms.getLast? with
      | none =>
        ({ g1 with entities := g1.entities.map fun (e : Entity) =>
            if e.eid = player_eid then
              { e with x := new_room.centre.1, y := new_room.centre.2 }
            else e },
         st.rng)
      | some prev =>
        let (cells, r') := tunnelBetween st.rng prev.centre new_room.centre
        (carveTiles g1 cells, r')
    let placed := placeEntities new_room step.1 step.2 max_monsters st.nextId
    { rooms := st.rooms ++ [new_room]
      dungeon := placed.1
      rng := placed.2.1
      nextId := placed.2.2 }

/-- One iteration of the generation loop (src/procgen.py, lines 189-215):
sample a candidate size and placement, then run the acceptance step. -/
def genIter (room_min_size room_max_size max_monsters : Int) (player_eid : Nat)
    (st : GenState) : GenState :=
  let (room_width, r1) := st.rng.randint room_min_size room_max_size
  let (room_height, r2) := r1.randint room_min_size room_max_size
  let (x, r3) := r2.randint 0 (st.dungeon.width - room_width - 1)
  let (y, r4) := r3.randint 0 (st.dungeon.height - room_height - 1)
  let new_room := RectangularRoom.mkRoom x y room_width room_height
  placeRoom max_monsters player_eid { st with rng := r4 } new_room

/-- generate_dungeon (src/procgen.py, lines 161-217): start from an all-wall
map containing only the player and run up to max_rooms iterations. -/
def generateDungeon (max_rooms : Nat) (room_min_size room_max_size : Int)
    (map_width map_height : Int) (max_monsters : Int) (player : Entity)
    (rng : Rng) : GenState :=
  let dungeon : GameMap :=
    { width := map_width, height := map_height
      tiles := fun _ _ => wallTile
      visible := fun _ _ => false
      explored := fun _ _ => false
      entities := [player] }
  (List.range max_rooms).foldl
    (fun st _ => genIter room_min_size room_max_size max_monsters player.eid st)
    { rooms := [], dungeon := dungeon, rng := rng, nextId := player.eid + 1 }

/-! Observation helpers and concrete fixtures used by the closed evaluation
theorems and by the witnesses. -/

/-- Stored hp of the fighter component of the entity with the given
identity. -/
def entityHp (g : GameMap) (eid : Nat) : Option Int :=
  (getEntity g eid).bind fun e => e.fighter.map fun f => f.hp

/-- Small all-floor test map builder with everything visible. -/
def mkTestMap (w h : Int) (wallCells : List (Int × Int)) (ents : List Entity) : GameMap :=
  { width := w, height := h
    tiles := fun x y =>
      if wallCells.any (fun c => c.1 == x && c.2 == y) then wallTile else floorTile
    visible := fun _ _ => true
    explored := fun _ _ => false
    entities := ents }

/-- Player test actor at cell (2, 2). -/
def playerFixture : Entity :=
  { eid := 0, x := 2, y := 2, char := "@", color := (255, 255, 255), name := "Player"
    blocks_movement := true, render_order := RenderOrder.actor
    fighter := some ⟨30, 30, 1, 5⟩, ai := some ⟨AIKind.hostile, []⟩ }

/-- Orc test actor adjacent to the player, at cell (3, 2). -/
def orcFixture : Entity :=
  { orcTemplate with eid := 1, x := 3, y := 2 }

/-- State with the player at (2, 2) and an adjacent orc at (3, 2) on an open
floor, everything visible. -/
def fixtureState : GameState :=
  { game_map := mkTestMap 10 10 [] [playerFixture, orcFixture]
    player := 0
    event_handler := HandlerKind.mainGame
    message_log := ⟨[]⟩
    stdout := [] }

/-- Concrete stand-in for the external FOV computation: everything visible. -/
def cfAll : (Int → Int → Bool) → Int × Int → Int → (Int → Int → Bool) :=
  fun _ _ _ => fun _ _ => true

/-- Weak orc with 2 hp left, at cell (3, 3). -/
def weakOrc : Entity :=
  { orcTemplate with eid := 2, x := 3, y := 3, fighter := some ⟨10, 2, 0, 1⟩ }

/-- State with the player at (2, 2) and a 2-hp orc diagonally adjacent at
(3, 3): the player's power 5 attack overkills the orc. -/
def meleeState : GameState :=
  { game_map := mkTestMap 10 10 [] [playerFixture, weakOrc]
    player := 0
    event_handler := HandlerKind.mainGame
    message_log := ⟨[]⟩
    stdout := [] }

/-- State for the pathfinding witness: a 3 x 3 map with a wall at (0, 0)
and a blocking orc standing at (1, 1). -/
def pathState : GameState :=
  { game_map := mkTestMap 3 3 [(0, 0)] [{ orcTemplate with eid := 7, x := 1, y := 1 }]
    player := 7
    event_handler := HandlerKind.mainGame
    message_log := ⟨[]⟩
    stdout := [] }

/-- Acting entity of the pathfinding witness, standing at (2, 1). -/
def pathActor : Entity :=
  { orcTemplate with eid := 8, x := 2, y := 1 }

/-- Actor with a Fighter but no AI component, at (5, 5) with 4 hp. -/
def noAiActor : Entity :=
  { eid := 3, x := 5, y := 5, char := "n", color := (100, 100, 100), name := "Husk"
    blocks_movement := true, render_order := RenderOrder.actor
    fighter := some ⟨10, 4, 0, 1⟩, ai := none }

/-- State containing the player and the AI-less actor. -/
def noAiState : GameState :=
  { game_map := mkTestMap 10 10 [] [playerFixture, noAiActor]
    player := 0
    event_handler := HandlerKind.mainGame
    message_log := ⟨[]⟩
    stdout := [] }

/-- Fixed raw random stream for the generation witness. -/
def rngFixture : Rng := ⟨fun _ => 0, 0⟩

/-- Generation-loop state holding one accepted room, for the rejection
witness. -/
def genFixture : GenState :=
  { rooms := [RectangularRoom.mkRoom 1 1 4 4]
    dungeon :=
      { width := 20, height := 20, tiles := fun _ _ => wallTile
        visible := fun _ _ => false, explored := fun _ _ => false
        entities := [playerFixture] }
    rng := rngFixture
    nextId := 1 }

/-- Candidate room overlapping the accepted room of the generation
fixture. -/
def candFixture : RectangularRoom := RectangularRoom.mkRoom 3 3 4 4

/-! Helper lemmas about the entity collection and state updates. -/

theorem foldl_preserves {α β : Type _} (P : α → Prop) {step : α → β → α}
    (hstep : ∀ a b, P a → P (step a b)) :
    ∀ (l : List β) (a : α), P a → P (l.foldl step a) := by
  intro l
  induction l with
  | nil => intro a h; exact h
  | cons x xs ih => intro a h; exact ih _ (hstep _ _ h)

theorem eid_of_getEntity {g : GameMap} {eid : Nat} {e : Entity}
    (h : getEntity g eid = some e) : e.eid = eid := by
  have := List.find?_some h
  simpa using this

theorem mem_of_getEntity {g : GameMap} {eid : Nat} {e : Entity}
    (h : getEntity g eid = some e) : e ∈ g.entities :=
  List.mem_of_find?_eq_some h

theorem find?_map_comm {l : List Entity} {p : Entity → Bool} {u : Entity → Entity}
    (hp : ∀ e, p (u e) = p e) :
    (l.map u).find? p = (l.find? p).map u := by
  induction l with
  | nil => rfl
  | cons e es ih =>
    by_cases hpe : p e = true
    · rw [List.map_cons, List.find?_cons_of_pos _ (by rw [hp]; exact hpe),
        List.find?_cons_of_pos _ hpe]
      rfl
    · have hf : p e = false := by simpa using hpe
      rw [List.map_cons, List.find?_cons_of_neg _ (by rw [hp, hf]; simp),
        List.find?_cons_of_neg _ (by rw [hf]; simp), ih]

theorem getEntity_updateEntity (g : GameMap) (tid eid : Nat) (f : Entity → Entity)
    (hf : ∀ e, (f e).eid = e.eid) :
    getEntity (updateEntity g tid f) eid =
      (getEntity g eid).map fun e => if e.eid = tid then f e else e := by
  unfold getEntity updateEntity
  exact find?_map_comm (by intro e; by_cases h : e.eid = tid <;> simp [h, hf])

theorem getEntity_update_self (g : GameMap) (eid : Nat) (f : Entity → Entity)
    (hf : ∀ e, (f e).eid = e.eid) {e : Entity} (he : getEntity g eid = some e) :
    getEntity (updateEntity g eid f) eid = some (f e) := by
  rw [getEntity_updateEntity g eid eid f hf, he]
  simp [eid_of_getEntity he]

theorem getEntity_update_ne (g : GameMap) (tid eid : Nat) (f : Entity → Entity)
    (hf : ∀ e, (f e).eid = e.eid) (hne : eid ≠ tid) :
    getEntity (updateEntity g tid f) eid = getEntity g eid := by
  rw [getEntity_updateEntity g tid eid f hf]
  cases he : getEntity g eid with
  | none => rfl
  | some e =>
    have h1 := eid_of_getEntity he
    simp [h1, hne]

theorem updateEntity_eids (g : GameMap) (tid : Nat) (f : Entity → Entity)
    (hf : ∀ e, (f e).eid = e.eid) :
    (updateEntity g tid f).entities.map Entity.eid = g.entities.map Entity.eid := by
  unfold updateEntity
  simp only [List.map_map]
  exact List.map_congr_left
    (by intro e _; by_cases h : e.eid = tid <;> simp [Function.comp, h, hf])

theorem map_eq_self_of_eq {l : List Entity} {u : Entity → Entity}
    (h : ∀ e ∈ l, u e = e) : l.map u = l := by
  induction l with
  | nil => rfl
  | cons x xs ih =>
    rw [List.map_cons, h x (List.mem_cons_self x xs),
      ih fun e he => h e (List.mem_cons_of_mem x he)]

theorem eid_inj {l : List Entity} (hnd : (l.map Entity.eid).Nodup)
    {a b : Entity} (ha : a ∈ l) (hb : b ∈ l) (h : a.eid = b.eid) : a = b :=
  List.inj_on_of_nodup_map hnd ha hb h

theorem getEntity_of_mem {g : GameMap} (hnd : (g.entities.map Entity.eid).Nodup)
    {t : Entity} (ht : t ∈ g.entities) : getEntity g t.eid = some t := by
  have hsome : (g.entities.find? fun e => e.eid == t.eid).isSome := by
    rw [List.find?_isSome]
    exact ⟨t, ht, by simp⟩
  obtain ⟨e, he⟩ := Option.isSome_iff_exists.mp hsome
  have hmem := List.mem_of_find?_eq_some he
  have hpe : e.eid = t.eid := by simpa using List.find?_some he
  have het : e = t := eid_inj hnd hmem ht hpe
  unfold getEntity
  rw [he, het]

/-! Claim theorems. -/

/-- C2: performing Move succeeds exactly when the destination is in bounds,
its tile is walkable and no blocking entity occupies it; on success the
acting entity's position shifts by exactly (dx, dy) and nothing else of the
state changes; on any failure the state is returned untouched; and the
perform dispatch yields a normal result (no error) for Move. -/
theorem move_success_iff (s : GameState) (eid : Nat) (dx dy : Int) (e : Entity)
    (he : getEntity s.game_map eid = some e) :
    (s.game_map.in_bounds (e.x + dx) (e.y + dy) = true →
      (s.game_map.tiles (e.x + dx) (e.y + dy)).walkable = true →
      s.game_map.get_blocking_entity_at_location (e.x + dx) (e.y + dy) = none →
      movePerform s eid dx dy =
        { s with game_map := updateEntity s.game_map eid fun e' =>
            { e' with x := e'.x + dx, y := e'.y + dy } } ∧
      getEntity (movePerform s eid dx dy).game_map eid =
        some { e with x := e.x + dx, y := e.y + dy })
    ∧ (¬ (s.game_map.in_bounds (e.x + dx) (e.y + dy) = true ∧
          (s.game_map.tiles (e.x + dx) (e.y + dy)).walkable = true ∧
          s.game_map.get_blocking_entity_at_location (e.x + dx) (e.y + dy) = none) →
        movePerform s eid dx dy = s)
    ∧ actionPerform s eid (ActionKind.moveA dx dy) =
        Except.ok (movePerform s eid dx dy) := by
  refine ⟨?_, ?_, rfl⟩
  · intro h1 h2 h3
    have hmv : movePerform s eid dx dy =
        { s with game_map := updateEntity s.game_map eid fun e' =>
            { e' with x := e'.x + dx, y := e'.y + dy } } := by
      unfold movePerform
      rw [he]
      simp [h1, h2, h3]
    refine ⟨hmv, ?_⟩
    rw [hmv]
    exact getEntity_update_self s.game_map eid
      (fun e' => { e' with x := e'.x + dx, y := e'.y + dy }) (fun e' => rfl) he
  · intro hfail
    unfold movePerform
    rw [he]
    by_cases h1 : s.game_map.in_bounds (e.x + dx) (e.y + dy) = true
    · by_cases h2 : (s.game_map.tiles (e.x + dx) (e.y + dy)).walkable = true
      · have h3 : s.game_map.get_blocking_entity_at_location (e.x + dx) (e.y + dy) ≠ none :=
          fun h => hfail ⟨h1, h2, h⟩
        have h3' : (s.game_map.get_blocking_entity_at_location (e.x + dx) (e.y + dy)).isSome :=
          Option.ne_none_iff_isSome.mp h3
        simp [h1, h2, h3']
      · simp [h1, h2]
    · simp [h1]

/-- C2 witness: on an open 10 x 10 floor the player at (2, 2) moves by
(0, 1) to (2, 3), and an out-of-bounds move by (0, -3) is a silent no-op. -/
theorem move_success_iff_witness :
    getEntity (movePerform fixtureState 0 0 1).game_map 0 =
      some { playerFixture with x := 2, y := 3 } ∧
    movePerform fixtureState 0 0 (-3) = fixtureState := by
  constructor
  · exact ((move_success_iff fixtureState 0 0 1 playerFixture rfl).1
      (by decide) (by decide) (by decide)).2
  · exact (move_success_iff fixtureState 0 0 (-3) playerFixture rfl).2.1
      (by intro h; exact absurd h.1 (by decide))

/-- C5: at perform time Bump produces exactly the state Melee produces when
a living actor occupies the destination, and exactly the state Move produces
when none does. -/
theorem bump_refines_melee_or_move (s : GameState) (eid : Nat) (dx dy : Int)
    (e : Entity) (he : getEntity s.game_map eid = some e) :
    ((s.game_map.get_actor_at_location (e.x + dx) (e.y + dy)).isSome = true →
      bumpPerform s eid dx dy = meleePerform s eid dx dy)
    ∧ (s.game_map.get_actor_at_location (e.x + dx) (e.y + dy) = none →
      bumpPerform s eid dx dy = movePerform s eid dx dy) := by
  constructor
  · intro h
    unfold bumpPerform
    rw [he]
    simp [h]
  · intro h
    unfold bumpPerform
    rw [he]
    simp [h]

/-- C5 witness: the player bumping right into the adjacent orc yields the
Melee state, and bumping up into empty floor yields the Move state. -/
theorem bump_refines_witness :
    bumpPerform fixtureState 0 1 0 = meleePerform fixtureState 0 1 0 ∧
    bumpPerform fixtureState 0 0 (-1) = movePerform fixtureState 0 0 (-1) := by
  constructor
  · exact (bump_refines_melee_or_move fixtureState 0 1 0 playerFixture rfl).1 (by decide)
  · exact (bump_refines_melee_or_move fixtureState 0 0 (-1) playerFixture rfl).2 (by decide)

/-- C9: after the FOV recomputation the explored grid is the pointwise OR of
its previous value with the newly computed visible grid, so explored is
monotone: a cell explored before stays explored. -/
theorem explored_or_visible_monotone
    (cf : (Int → Int → Bool) → Int × Int → Int → (Int → Int → Bool))
    (s : GameState) (p : Entity) (hp : getEntity s.game_map s.player = some p) :
    (∀ x y, (updateFov cf s).game_map.explored x y =
        (s.game_map.explored x y || (updateFov cf s).game_map.visible x y))
    ∧ (∀ x y, s.game_map.explored x y = true →
        (updateFov cf s).game_map.explored x y = true) := by
  unfold updateFov
  rw [hp]
  exact ⟨fun x y => rfl, fun x y h => by simp [h]⟩

/-- C9 witness: in the fixture, explored at (4, 4) after the FOV update is
its old value OR the new visible value, and remains explored afterwards for
an already-explored cell of a state whose explored grid is all true. -/
theorem explored_or_visible_monotone_witness :
    (updateFov cfAll fixtureState).game_map.explored 4 4 =
      (fixtureState.game_map.explored 4 4 ||
        (updateFov cfAll fixtureState).game_map.visible 4 4) := by
  exact (explored_or_visible_monotone cfAll fixtureState playerFixture rfl).1 4 4

/-- C1, evaluated at a failing input: with the player waiting next to a
living hostile orc, the turn handler leaves every entity untouched (the
placeholder enemy-turn loop only prints one line per non-player entity and
never invokes AI), while actually invoking the orc's AI behaviour would have
attacked the player for 2 hit points. -/
theorem enemy_turns_placeholder_no_ai :
    (∃ sf, handleOneAction cfAll fixtureState ActionKind.waitA = Except.ok sf ∧
        sf.game_map.entities = fixtureState.game_map.entities ∧
        entityHp sf.game_map 0 = some 30 ∧
        sf.stdout = ["The Orc wonders when it will get to take a real turn."])
    ∧ entityHp (hostileEnemyPerform fixtureState 1).game_map 0 = some 28 := by
  refine ⟨⟨_, rfl, rfl, rfl, rfl⟩, ?_⟩
  decide

theorem fighterDie_stdout (s : GameState) (eid : Nat) :
    (fighterDie s eid).stdout = s.stdout := by
  unfold fighterDie
  cases hg : getEntity s.game_map eid <;> rfl

theorem fighterSetHp_stdout (s : GameState) (eid : Nat) (v : Int) :
    (fighterSetHp s eid v).stdout = s.stdout := by
  unfold fighterSetHp
  cases hg : getEntity s.game_map eid with
  | none => rfl
  | some e =>
    cases hf : e.fighter with
    | none => simp only [hf]
    | some f =>
      simp only [hf]
      split
      · rw [fighterDie_stdout]
      · rfl

theorem fighterDie_eq (s : GameState) (eid : Nat) {e1 : Entity}
    (hg : getEntity s.game_map eid = some e1) :
    fighterDie s eid =
      { s with
        game_map := updateEntity s.game_map eid fun e' =>
          { e' with
            char := "%"
            color := (191, 0, 0)
            blocks_movement := false
            ai := none
            name := "remains of " ++ e'.name
            render_order := RenderOrder.corpse }
        event_handler := if s.player = eid then HandlerKind.gameOver else s.event_handler
        message_log := s.message_log.add_message
          (if s.player = eid then "You died!" else e1.name ++ " is dead!")
          (if s.player = eid then colour_player_die else colour_enemy_die) true } := by
  unfold fighterDie
  rw [hg]

theorem entityHp_fighterDie (s : GameState) (eid : Nat) :
    entityHp (fighterDie s eid).game_map eid = entityHp s.game_map eid := by
  cases hg : getEntity s.game_map eid with
  | none =>
    unfold fighterDie
    rw [hg]
  | some e1 =>
    rw [fighterDie_eq s eid hg]
    unfold entityHp
    rw [getEntity_update_self s.game_map eid
        (fun e' =>
          { e' with
            char := "%"
            color := (191, 0, 0)
            blocks_movement := false
            ai := none
            name := "remains of " ++ e'.name
            render_order := RenderOrder.corpse })
        (fun e' => rfl) hg, hg]
    rfl

theorem fighterDie_eids (s : GameState) (eid : Nat) :
    (fighterDie s eid).game_map.entities.map Entity.eid =
      s.game_map.entities.map Entity.eid := by
  unfold fighterDie
  cases hg : getEntity s.game_map eid with
  | none => rfl
  | some e1 => exact updateEntity_eids s.game_map eid _ (fun e' => rfl)

theorem fighterSetHp_eids (s : GameState) (eid : Nat) (v : Int) :
    (fighterSetHp s eid v).game_map.entities.map Entity.eid =
      s.game_map.entities.map Entity.eid := by
  unfold fighterSetHp
  cases hg : getEntity s.game_map eid with
  | none => rfl
  | some e =>
    cases hf : e.fighter with
    | none => simp only [hf]
    | some f =>
      simp only [hf]
      split
      · rw [fighterDie_eids]
        exact updateEntity_eids s.game_map eid _ (fun e' => rfl)
      · exact updateEntity_eids s.game_map eid _ (fun e' => rfl)

theorem entityHp_fighterSetHp (s : GameState) (tid : Nat) (v : Int)
    {t : Entity} {tf : Fighter} (ht : getEntity s.game_map tid = some t)
    (htf : t.fighter = some tf) :
    entityHp (fighterSetHp s tid v).game_map tid = some (max 0 (min v tf.max_hp)) := by
  unfold fighterSetHp
  simp only [ht, htf]
  have hbase : ∀ w : Int,
      entityHp (updateEntity s.game_map tid fun e' =>
        { e' with fighter := e'.fighter.map fun fgt => { fgt with hp := w } }) tid =
      some w := by
    intro w
    unfold entityHp
    rw [getEntity_update_self s.game_map tid
        (fun e' => { e' with fighter := e'.fighter.map fun fgt => { fgt with hp := w } })
        (fun e' => rfl) ht]
    simp [htf]
  split
  · rw [entityHp_fighterDie]
    exact hbase _
  · exact hbase _

theorem actor_at_spec {g : GameMap} {x y : Int} {t : Entity}
    (h : g.get_actor_at_location x y = some t) :
    t ∈ g.entities ∧ t.isActor = true ∧ t.is_alive = true ∧ t.x = x ∧ t.y = y := by
  unfold GameMap.get_actor_at_location at h
  have hmem := List.mem_of_find?_eq_some h
  have hpred := List.find?_some h
  unfold GameMap.actorsList at hmem
  have hmem' := List.mem_of_mem_filter hmem
  have hfil := List.of_mem_filter hmem
  rw [Bool.and_eq_true] at hfil
  rw [Bool.and_eq_true] at hpred
  refine ⟨hmem', hfil.1, hfil.2, ?_, ?_⟩
  · simpa using hpred.1
  · simpa using hpred.2

/-- C3 counterexample: with attacker power 5 against a 2-hp defender of
defense 0 the damage is 5, yet the performed Melee leaves the defender at
hp 0 rather than at 2 - 5: the loss is clamped, so the hp does not decrease
by exactly the damage. -/
theorem melee_overkill_counterexample :
    entityHp (meleePerform meleeState 0 1 1).game_map 2 = some 0 ∧
    entityHp (meleePerform meleeState 0 1 1).game_map 2 ≠ some (2 - 5) :=
  ⟨by decide, by decide⟩

/-- C3 (amended): for a Melee performed against a living actor, damage
equals attacker power minus defender defense; if the damage is positive the
defender's hp decreases by exactly that damage clamped at zero (the new hp
is max 0 (hp - damage)) and a hit message is printed; if the damage is not
positive the state changes only by the printed no-damage message. -/
theorem melee_damage_amended (s : GameState) (eid : Nat) (dx dy : Int)
    (e : Entity) (ef : Fighter) (t : Entity) (tf : Fighter)
    (hnd : (s.game_map.entities.map Entity.eid).Nodup)
    (he : getEntity s.game_map eid = some e) (hef : e.fighter = some ef)
    (ht : s.game_map.get_actor_at_location (e.x + dx) (e.y + dy) = some t)
    (htf : t.fighter = some tf) (hbound : tf.hp ≤ tf.max_hp) :
    (0 < ef.power - tf.defense →
      entityHp (meleePerform s eid dx dy).game_map t.eid =
        some (max 0 (tf.hp - (ef.power - tf.defense))) ∧
      (meleePerform s eid dx dy).stdout = s.stdout ++
        [strCapitalize e.name ++ " attacks " ++ t.name ++ " for " ++
          toString (ef.power - tf.defense) ++ " hit points."])
    ∧ (ef.power - tf.defense ≤ 0 →
      meleePerform s eid dx dy = { s with stdout := s.stdout ++
        [strCapitalize e.name ++ " attacks " ++ t.name ++ " but does no damage."] }) := by
  have htt : getEntity s.game_map t.eid = some t :=
    getEntity_of_mem hnd (actor_at_spec ht).1
  constructor
  · intro hpos
    have hform : meleePerform s eid dx dy =
        { fighterSetHp s t.eid (tf.hp - (ef.power - tf.defense)) with
          stdout := (fighterSetHp s t.eid (tf.hp - (ef.power - tf.defense))).stdout ++
            [strCapitalize e.name ++ " attacks " ++ t.name ++ " for " ++
              toString (ef.power - tf.defense) ++ " hit points."] } := by
      unfold meleePerform
      simp only [he, ht, hef, htf]
      rw [if_pos hpos]
    rw [hform]
    constructor
    · have hhp := entityHp_fighterSetHp s t.eid (tf.hp - (ef.power - tf.defense)) htt htf
      have hmin : min (tf.hp - (ef.power - tf.defense)) tf.max_hp =
          tf.hp - (ef.power - tf.defense) := min_eq_left (by omega)
      rw [hmin] at hhp
      exact hhp
    · rw [fighterSetHp_stdout]
  · intro hneg
    unfold meleePerform
    simp only [he, ht, hef, htf]
    rw [if_neg (by omega)]

/-- C3 witness: the amended hit branch evaluated in the overkill fixture:
the defender ends at max 0 (2 - 5) = 0 hp. -/
theorem melee_damage_amended_witness :
    entityHp (meleePerform meleeState 0 1 1).game_map 2 =
      some (max 0 ((2 : Int) - (5 - 0))) :=
  ((melee_damage_amended meleeState 0 1 1 playerFixture ⟨30, 30, 1, 5⟩ weakOrc
      ⟨10, 2, 0, 1⟩ (by decide) rfl rfl (by decide) rfl (by decide)).1 (by decide)).1

theorem fighterSetHp_noop_on_dead (s2 : GameState) (eid : Nat) (e2 : Entity) (f2 : Fighter)
    (hnd2 : (s2.game_map.entities.map Entity.eid).Nodup)
    (he2 : getEntity s2.game_map eid = some e2)
    (hf2 : e2.fighter = some f2) (hhp : f2.hp = 0) (ha2 : e2.ai = none)
    (w : Int) (hw : w ≤ 0) :
    fighterSetHp s2 eid w = s2 := by
  unfold fighterSetHp
  simp only [he2, hf2]
  have h0 : max 0 (min w f2.max_hp) = 0 :=
    max_eq_left (le_trans (min_le_left _ _) hw)
  rw [h0]
  have hcond : ¬ ((0 : Int) ≤ 0 ∧ e2.ai.isSome = true) := by
    rw [ha2]
    simp
  rw [if_neg hcond]
  have hall : ∀ e'' ∈ s2.game_map.entities,
      (if e''.eid = eid then
        { e'' with fighter := e''.fighter.map fun fgt => { fgt with hp := (0 : Int) } }
       else e'') = e'' := by
    intro e'' hmem
    by_cases hid : e''.eid = eid
    · have heq : e'' = e2 :=
        eid_inj hnd2 hmem (mem_of_getEntity he2) (by rw [hid, eid_of_getEntity he2])


      rw [if_pos hid, heq]
      show { e2 with fighter := e2.fighter.map fun fgt => { fgt with hp := (0 : Int) } } = e2
      rw [hf2]
      have hfix : ({ f2 with hp := (0 : Int) } : Fighter) = f2 := by
        cases f2
        simp_all
      show { e2 with fighter := some { f2 with hp := (0 : Int) } } = e2
      rw [hfix, ← hf2]
    · rw [if_neg hid]
  have hgm : (updateEntity s2.game_map eid fun e' =>
      { e' with fighter := e'.fighter.map fun fgt => { fgt with hp := (0 : Int) } }) =
      s2.game_map := by
    unfold updateEntity
    rw [map_eq_self_of_eq hall]
  rw [hgm]

/-- C4: after any hp assignment the stored hp lies in [0, max_hp]; an hp
assignment below zero on a live actor carrying an AI clamps the stored hp to
0 and performs the in-place death transition (corpse glyph and colour,
blocking cleared, AI detached, renamed, corpse render priority); and on the
resulting dead actor every further hp-reducing assignment returns the state
completely unchanged, so the transition fires exactly once and is never
re-entered. -/
theorem hp_clamp_death_once (s : GameState) (eid : Nat) (e : Entity)
    (f : Fighter) (a : AIState)
    (hnd : (s.game_map.entities.map Entity.eid).Nodup)
    (he : getEntity s.game_map eid = some e)
    (hf : e.fighter = some f) (ha : e.ai = some a)
    (hmax : 0 ≤ f.max_hp) (v : Int) (hv : v < 0) :
    (∀ w : Int, ∃ h : Int,
        entityHp (fighterSetHp s eid w).game_map eid = some h ∧ 0 ≤ h ∧ h ≤ f.max_hp)
    ∧ getEntity (fighterSetHp s eid v).game_map eid =
        some { e with
               fighter := some { f with hp := 0 }
               char := "%"
               color := (191, 0, 0)
               blocks_movement := false
               ai := none
               name := "remains of " ++ e.name
               render_order := RenderOrder.corpse }
    ∧ (∀ w : Int, w ≤ 0 →
        fighterSetHp (fighterSetHp s eid v) eid w = fighterSetHp s eid v) := by
  have hset1 : getEntity
      (updateEntity s.game_map eid fun e' =>
        { e' with fighter := e'.fighter.map fun fgt => { fgt with hp := (0 : Int) } }) eid =
      some { e with fighter := some { f with hp := (0 : Int) } } := by
    rw [getEntity_update_self s.game_map eid
        (fun e' => { e' with fighter := e'.fighter.map fun fgt => { fgt with hp := (0 : Int) } })
        (fun e' => rfl) he]
    simp [hf]
  have h0 : max 0 (min v f.max_hp) = 0 :=
    max_eq_left (le_trans (min_le_left _ _) (le_of_lt hv))
  have hform : fighterSetHp s eid v =
      fighterDie { s with game_map := updateEntity s.game_map eid fun e' =>
        { e' with fighter := e'.fighter.map fun fgt => { fgt with hp := (0 : Int) } } } eid := by
    unfold fighterSetHp
    simp only [he, hf, h0]
    rw [if_pos ⟨le_refl (0 : Int), by rw [ha]; rfl⟩]
  have hdeadE : getEntity (fighterSetHp s eid v).game_map eid =
      some { e with
             fighter := some { f with hp := 0 }
             char := "%"
             color := (191, 0, 0)
             blocks_movement := false
             ai := none
             name := "remains of " ++ e.name
             render_order := RenderOrder.corpse } := by
    rw [hform, fighterDie_eq _ eid hset1]
    rw [getEntity_update_self
        (updateEntity s.game_map eid fun e' =>
          { e' with fighter := e'.fighter.map fun fgt => { fgt with hp := (0 : Int) } })
        eid
        (fun e' =>
          { e' with
            char := "%"
            color := (191, 0, 0)
            blocks_movement := false
            ai := none
            name := "remains of " ++ e'.name
            render_order := RenderOrder.corpse })
        (fun e' => rfl) hset1]
  have hnd' : ((fighterSetHp s eid v).game_map.entities.map Entity.eid).Nodup := by
    rw [fighterSetHp_eids]
    exact hnd
  refine ⟨?_, hdeadE, ?_⟩
  · intro w
    refine ⟨max 0 (min w f.max_hp), entityHp_fighterSetHp s eid w he hf, le_max_left _ _,
      max_le hmax (min_le_right _ _)⟩
  · intro w hw
    exact fighterSetHp_noop_on_dead (fighterSetHp s eid v) eid _ _ hnd' hdeadE rfl rfl rfl w hw

/-- C4 witness: forcing the 10-hp orc of the fixture to hp -5 yields a
clamped in-range hp, and a further forced assignment to -7 leaves the state
identical. -/
theorem hp_clamp_death_once_witness :
    (∃ h : Int, entityHp (fighterSetHp fixtureState 1 (-5)).game_map 1 = some h ∧
        0 ≤ h ∧ h ≤ 10) ∧
    fighterSetHp (fighterSetHp fixtureState 1 (-5)) 1 (-7) =
      fighterSetHp fixtureState 1 (-5) := by
  have h := hp_clamp_death_once fixtureState 1 orcFixture ⟨10, 10, 0, 3⟩
    ⟨AIKind.hostile, []⟩ (by decide) rfl rfl rfl (by decide) (-5) (by decide)
  exact ⟨h.1 (-5), h.2.2 (-7) (by decide)⟩

/-- C10: an hp assignment reaching 0 on an actor with no AI component
clamps the hp but performs no death transition: the actor keeps its glyph,
colour, name, blocking flag and render priority, is no longer alive, is
excluded from the living-actor query, and no handler switch, death message
or printed line is produced. -/
theorem death_transition_requires_ai (s : GameState) (eid : Nat) (e : Entity) (f : Fighter)
    (hnd : (s.game_map.entities.map Entity.eid).Nodup)
    (he : getEntity s.game_map eid = some e)
    (hf : e.fighter = some f) (ha : e.ai = none) (v : Int) (hv : v ≤ 0) :
    getEntity (fighterSetHp s eid v).game_map eid =
      some { e with fighter := some { f with hp := 0 } }
    ∧ Entity.is_alive { e with fighter := some { f with hp := 0 } } = false
    ∧ (∀ b ∈ (fighterSetHp s eid v).game_map.actorsList, b.eid ≠ eid)
    ∧ (fighterSetHp s eid v).event_handler = s.event_handler
    ∧ (fighterSetHp s eid v).message_log = s.message_log
    ∧ (fighterSetHp s eid v).stdout = s.stdout := by
  have h0 : max 0 (min v f.max_hp) = 0 :=
    max_eq_left (le_trans (min_le_left _ _) hv)
  have hform : fighterSetHp s eid v =
      { s with game_map := updateEntity s.game_map eid fun e' =>
        { e' with fighter := e'.fighter.map fun fgt => { fgt with hp := (0 : Int) } } } := by
    unfold fighterSetHp
    simp only [he, hf, h0]
    rw [if_neg ?_]
    rw [ha]
    simp
  have hget : getEntity (fighterSetHp s eid v).game_map eid =
      some { e with fighter := some { f with hp := (0 : Int) } } := by
    rw [hform]
    rw [getEntity_update_self s.game_map eid
        (fun e' => { e' with fighter := e'.fighter.map fun fgt => { fgt with hp := (0 : Int) } })
        (fun e' => rfl) he]
    simp [hf]
  refine ⟨hget, rfl, ?_, by rw [hform], by rw [hform], by rw [hform]⟩
  intro b hb hbid
  have hnd' : ((fighterSetHp s eid v).game_map.entities.map Entity.eid).Nodup := by
    rw [fighterSetHp_eids]
    exact hnd
  unfold GameMap.actorsList at hb
  have hmem := List.mem_of_mem_filter hb
  have hfil := List.of_mem_filter hb
  have hdm := mem_of_getEntity hget
  have heid : b = { e with fighter := some { f with hp := (0 : Int) } } :=
    eid_inj hnd' hmem hdm (by rw [hbid, eid_of_getEntity hget])
  rw [heid] at hfil
  simp [Entity.isActor, Entity.is_alive] at hfil

/-- C10 witness: forcing the AI-less 4-hp actor to hp -2 clamps its hp to 0
without any death transition and without any message. -/
theorem death_transition_requires_ai_witness :
    getEntity (fighterSetHp noAiState 3 (-2)).game_map 3 =
      some { noAiActor with fighter := some ⟨10, 0, 0, 1⟩ } ∧
    (fighterSetHp noAiState 3 (-2)).message_log = noAiState.message_log := by
  have h := death_transition_requires_ai noAiState 3 noAiActor ⟨10, 4, 0, 1⟩
    (by decide) rfl rfl rfl (-2) (by decide)
  exact ⟨h.1, h.2.2.2.2.1⟩

theorem intersects_eq_true (r o : RectangularRoom) :
    r.intersects o = true ↔
      r.x1 ≤ o.x2 ∧ o.x1 ≤ r.x2 ∧ r.y1 ≤ o.y2 ∧ o.y1 ≤ r.y2 := by
  simp [RectangularRoom.intersects, ge_iff_le, and_assoc]

theorem intersects_comm (r o : RectangularRoom) : r.intersects o = o.intersects r := by
  by_cases h : r.intersects o = true
  · have h2 : o.intersects r = true := by
      rw [intersects_eq_true] at h ⊢
      tauto
    rw [h, h2]
  · have h1 : r.intersects o = false := by simpa using h
    have h2 : o.intersects r = false := by
      by_contra hc
      have hc' : o.intersects r = true := by simpa using hc
      rw [intersects_eq_true] at hc'
      exact h (by rw [intersects_eq_true]; tauto)
    rw [h1, h2]

theorem placeRoom_reject (mm : Int) (pe : Nat) (st : GenState) (room : RectangularRoom)
    (h : ∃ r ∈ st.rooms, room.intersects r = true) :
    placeRoom mm pe st room = st := by
  unfold placeRoom
  rw [if_pos (List.any_eq_true.mpr h)]

theorem placeRoom_pairwise (mm : Int) (pe : Nat) (st : GenState) (room : RectangularRoom)
    (h : st.rooms.Pairwise fun a b => a.intersects b = false) :
    (placeRoom mm pe st room).rooms.Pairwise fun a b => a.intersects b = false := by
  unfold placeRoom
  split
  · exact h
  · rename_i hna
    show (st.rooms ++ [room]).Pairwise fun a b => a.intersects b = false
    rw [List.pairwise_append]
    refine ⟨h, List.pairwise_singleton _ _, ?_⟩
    intro a ha b hb
    rw [List.mem_singleton] at hb
    rw [hb]
    have hfa : st.rooms.any (fun other_room => room.intersects other_room) = false := by
      simpa using hna
    have hfr := List.any_eq_false.mp hfa a ha
    rw [intersects_comm]
    simpa using hfr

/-- C6: every run of the dungeon generator yields a pairwise
non-intersecting accepted room list, and the acceptance step discards a
candidate intersecting any already-accepted room with the whole generation
state (rooms, tiles, entities, rng) untouched. -/
theorem rooms_pairwise_disjoint (max_rooms : Nat)
    (room_min_size room_max_size map_width map_height max_monsters : Int)
    (player : Entity) (rng : Rng) :
    ((generateDungeon max_rooms room_min_size room_max_size map_width map_height
        max_monsters player rng).rooms.Pairwise fun a b => a.intersects b = false)
    ∧ (∀ (mm : Int) (pe : Nat) (st : GenState) (cand : RectangularRoom),
        (∃ r ∈ st.rooms, cand.intersects r = true) → placeRoom mm pe st cand = st) := by
  constructor
  · simp only [generateDungeon]
    apply foldl_preserves
      (fun st : GenState => st.rooms.Pairwise fun a b => a.intersects b = false)
    · intro st n hp
      unfold genIter
      exact placeRoom_pairwise _ _ _ _ hp
    · exact List.Pairwise.nil
  · intro mm pe st cand h
    exact placeRoom_reject mm pe st cand h

/-- C6 witness: a full generation run keeps its accepted rooms pairwise
non-intersecting, and a candidate overlapping the already-accepted room of
the fixture is rejected leaving the generation state unchanged. -/
theorem rooms_pairwise_disjoint_witness :
    ((generateDungeon 3 4 6 30 30 2 playerFixture rngFixture).rooms.Pairwise
      fun a b => a.intersects b = false)
    ∧ placeRoom 2 0 genFixture candFixture = genFixture := by
  have h := rooms_pairwise_disjoint 3 4 6 30 30 2 playerFixture rngFixture
  exact ⟨h.1, h.2 2 0 genFixture candFixture
    ⟨RectangularRoom.mkRoom 1 1 4 4, by decide, by decide⟩⟩

theorem getEntity_fighterDie_ne (s : GameState) (tid eid2 : Nat) (hne : eid2 ≠ tid) :
    getEntity (fighterDie s tid).game_map eid2 = getEntity s.game_map eid2 := by
  cases hg : getEntity s.game_map tid with
  | none =>
    unfold fighterDie
    rw [hg]
  | some t =>
    rw [fighterDie_eq s tid hg]
    exact getEntity_update_ne s.game_map tid eid2
      (fun e' =>
        { e' with
          char := "%"
          color := (191, 0, 0)
          blocks_movement := false
          ai := none
          name := "remains of " ++ e'.name
          render_order := RenderOrder.corpse })
      (fun e' => rfl) hne

theorem getEntity_fighterSetHp_ne (s : GameState) (tid eid2 : Nat) (v : Int)
    (hne : eid2 ≠ tid) :
    getEntity (fighterSetHp s tid v).game_map eid2 = getEntity s.game_map eid2 := by
  unfold fighterSetHp
  cases hg : getEntity s.game_map tid with
  | none => rfl
  | some t =>
    cases htf : t.fighter with
    | none => simp only [htf]
    | some tf =>
      simp only [htf]
      split
      · rw [getEntity_fighterDie_ne _ tid eid2 hne]
        exact getEntity_update_ne s.game_map tid eid2
          (fun e' => { e' with fighter := e'.fighter.map fun fgt =>
            { fgt with hp := max 0 (min v tf.max_hp) } })
          (fun e' => rfl) hne
      · exact getEntity_update_ne s.game_map tid eid2
          (fun e' => { e' with fighter := e'.fighter.map fun fgt =>
            { fgt with hp := max 0 (min v tf.max_hp) } })
          (fun e' => rfl) hne

/-- C8: a HostileEnemy whose cell is inside the player's visible set and
whose Chebyshev distance to the player is 1 (the adjacent offsets) performs
Melee toward the player, and the acting enemy's own entity is left
completely unchanged by the turn: it does not move and its stored path is
left entirely unconsumed. -/
theorem hostile_adjacent_attacks (s : GameState) (eid : Nat) (e pl : Entity)
    (hnd : (s.game_map.entities.map Entity.eid).Nodup)
    (he : getEntity s.game_map eid = some e)
    (hpl : getEntity s.game_map s.player = some pl)
    (hvis : s.game_map.visible e.x e.y = true)
    (hdist : max |pl.x - e.x| |pl.y - e.y| = 1) :
    hostileEnemyPerform s eid = meleePerform s eid (pl.x - e.x) (pl.y - e.y)
    ∧ getEntity (hostileEnemyPerform s eid).game_map eid = some e := by
  have hform : hostileEnemyPerform s eid =
      meleePerform s eid (pl.x - e.x) (pl.y - e.y) := by
    unfold hostileEnemyPerform
    simp only [he, hpl]
    rw [if_pos hvis, if_pos (by rw [hdist])]
  refine ⟨hform, ?_⟩
  rw [hform]
  unfold meleePerform
  rw [he]
  cases ht : s.game_map.get_actor_at_location (e.x + (pl.x - e.x)) (e.y + (pl.y - e.y)) with
  | none => simp only [ht]; exact he
  | some t =>
    simp only [ht]
    obtain ⟨htm, hta, htl, htx, hty⟩ := actor_at_spec ht
    have hne : t.eid ≠ eid := by
      intro hteq
      have het : t = e :=
        eid_inj hnd htm (mem_of_getEntity he) (by rw [hteq, eid_of_getEntity he])
      rw [het] at htx hty
      have hx : pl.x = e.x := by omega
      have hy : pl.y = e.y := by omega
      rw [hx, hy] at hdist
      simp at hdist
    cases hef : e.fighter with
    | none => simp only [hef]; exact he
    | some ef =>
      cases htff : t.fighter with
      | none => simp only [hef, htff]; exact he
      | some tff =>
        simp only [hef, htff]
        split
        · rw [getEntity_fighterSetHp_ne s t.eid eid _ (Ne.symm hne)]
          exact he
        · exact he

/-- C8 witness: the orc next to the visible player attacks instead of
moving and keeps its entity (position and stored path) untouched. -/
theorem hostile_adjacent_attacks_witness :
    hostileEnemyPerform fixtureState 1 =
      meleePerform fixtureState 1 (playerFixture.x - orcFixture.x)
        (playerFixture.y - orcFixture.y)
    ∧ getEntity (hostileEnemyPerform fixtureState 1).game_map 1 = some orcFixture :=
  hostile_adjacent_attacks fixtureState 1 orcFixture playerFixture (by decide) rfl rfl
    rfl (by decide)

theorem countBlockersAt_cons (e : Entity) (l : List Entity) (x y : Int) :
    countBlockersAt (e :: l) x y =
      countBlockersAt l x y +
        (if e.blocks_movement = true ∧ e.x = x ∧ e.y = y then 1 else 0) := by
  unfold countBlockersAt
  rw [List.filter_cons]
  by_cases h : e.blocks_movement = true ∧ e.x = x ∧ e.y = y
  · have hb : (e.blocks_movement && e.x == x && e.y == y) = true := by
      simp [h.1, h.2.1, h.2.2]
    rw [if_pos hb, if_pos h]
    simp [Nat.add_comm]
  · have hb : ¬ ((e.blocks_movement && e.x == x && e.y == y) = true) := by
      simp only [Bool.and_eq_true, beq_iff_eq]
      exact fun hc => h ⟨hc.1.1, hc.1.2, hc.2⟩
    rw [if_neg hb, if_neg h]
    simp

theorem costFold_formula (g : GameMap) :
    ∀ (l : List Entity) (c : Int → Int → Nat),
      (∀ x y, c x y ≠ 0 ↔ (g.tiles x y).walkable = true) →
      ∀ x y, l.foldl costStep c x y =
        if (g.tiles x y).walkable = true
        then c x y + 10 * countBlockersAt l x y else 0 := by
  intro l
  induction l with
  | nil =>
    intro c hc x y
    by_cases hw : (g.tiles x y).walkable = true
    · rw [if_pos hw]
      simp [countBlockersAt]
    · rw [if_neg hw]
      have h0 : c x y = 0 := by
        by_contra hne
        exact hw ((hc x y).mp hne)
      simpa using h0
  | cons e l ih =>
    intro c hc x y
    rw [List.foldl_cons]
    have hinv' : ∀ x' y', costStep c e x' y' ≠ 0 ↔ (g.tiles x' y').walkable = true := by
      intro x' y'
      unfold costStep
      split
      · rename_i hcond
        simp only []
        by_cases hxy : x' = e.x ∧ y' = e.y
        · rw [if_pos hxy]
          have hw : (g.tiles x' y').walkable = true := by
            rw [hxy.1, hxy.2]
            exact (hc e.x e.y).mp hcond.2
          exact ⟨fun _ => hw, fun _ => by omega⟩
        · rw [if_neg hxy]
          exact hc x' y'
      · exact hc x' y'
    rw [ih (costStep c e) hinv' x y, countBlockersAt_cons]
    by_cases hw : (g.tiles x y).walkable = true
    · rw [if_pos hw, if_pos hw]
      unfold costStep
      split
      · rename_i hcond
        simp only []
        by_cases hxy : x = e.x ∧ y = e.y
        · rw [if_pos hxy, if_pos ⟨hcond.1, hxy.1.symm, hxy.2.symm⟩]
          ring
        · rw [if_neg hxy,
            if_neg (fun hcontra => hxy ⟨hcontra.2.1.symm, hcontra.2.2.symm⟩)]
          ring
      · rename_i hcond
        have hind : ¬ (e.blocks_movement = true ∧ e.x = x ∧ e.y = y) := by
          intro hcontra
          apply hcond
          refine ⟨hcontra.1, ?_⟩
          rw [hcontra.2.1, hcontra.2.2]
          exact (hc x y).mpr hw
        rw [if_neg hind]
        ring
    · rw [if_neg hw, if_neg hw]

theorem costField_formula (g : GameMap) (x y : Int) :
    costField g x y =
      if (g.tiles x y).walkable = true
      then 1 + 10 * countBlockersAt g.entities x y else 0 := by
  unfold costField
  have hbase : ∀ x' y',
      (if (g.tiles x' y').walkable = true then 1 else 0) ≠ 0 ↔
        (g.tiles x' y').walkable = true := by
    intro x' y'
    by_cases hw : (g.tiles x' y').walkable = true <;> simp [hw]
  rw [costFold_formula g g.entities
      (fun x' y' => if (g.tiles x' y').walkable = true then 1 else 0) hbase x y]
  by_cases hw : (g.tiles x y).walkable = true <;> simp [hw]

theorem dijUpd_inv (root : Int × Int) (cost : Int → Int → Nat) (d : Dij)
    (u v : Int × Int) (cand : Nat) (hcost : cost v.1 v.2 ≠ 0) (hvroot : v ≠ root)
    (h : DijInv root cost d) :
    DijInv root cost
      { dist := fun c => if c = v then some cand else d.dist c
        pred := fun c => if c = v then some u else d.pred c } := by
  obtain ⟨h1, h2, h3⟩ := h
  refine ⟨?_, ?_, ?_⟩
  · show (if root = v then some cand else d.dist root) = some 0
    rw [if_neg (fun hr => hvroot hr.symm), h1]
  · show (if root = v then some u else d.pred root) = none
    rw [if_neg (fun hr => hvroot hr.symm), h2]
  · intro c hc hcost0
    constructor
    · show (if c = v then some cand else d.dist c) = none
      rw [if_neg (fun (hcv : c = v) => hcost (hcv ▸ hcost0)), (h3 c hc hcost0).1]
    · show (if c = v then some u else d.pred c) = none
      rw [if_neg (fun (hcv : c = v) => hcost (hcv ▸ hcost0)), (h3 c hc hcost0).2]

theorem relaxEdge_inv (g : GameMap) (cost : Int → Int → Nat) (root : Int × Int)
    (d : Dij) (u off : Int × Int) (isDiag : Bool) (h : DijInv root cost d) :
    DijInv root cost (relaxEdge g cost d u off isDiag) := by
  simp only [relaxEdge]
  split
  · rename_i hcond
    cases hdu : d.dist u with
    | none => exact h
    | some du =>
      simp only []
      cases hdv : d.dist (u.1 + off.1, u.2 + off.2) with
      | none =>
        simp only []
        have hvroot : (u.1 + off.1, u.2 + off.2) ≠ root := by
          intro hr
          rw [hr, h.1] at hdv
          exact Option.noConfusion hdv
        rw [if_pos trivial]
        exact dijUpd_inv root cost d u _ _ hcond.2 hvroot h
      | some dv =>
        simp only []
        split
        · rename_i hlt
          have hlt' : du + edgeWeight cost isDiag (u.1 + off.1, u.2 + off.2) < dv :=
            of_decide_eq_true hlt
          have hvroot : (u.1 + off.1, u.2 + off.2) ≠ root := by
            intro hr
            rw [hr, h.1] at hdv
            injection hdv with hdv0
            omega
          exact dijUpd_inv root cost d u _ _ hcond.2 hvroot h
        · exact h
  · exact h

theorem relaxCell_inv (g : GameMap) (cost : Int → Int → Nat) (root : Int × Int)
    (d : Dij) (u : Int × Int) (h : DijInv root cost d) :
    DijInv root cost (relaxCell g cost d u) := by
  unfold relaxCell
  exact foldl_preserves (DijInv root cost)
    (fun d' off h' => relaxEdge_inv g cost root d' u off true h')
    diagonalOffsets _
    (foldl_preserves (DijInv root cost)
      (fun d' off h' => relaxEdge_inv g cost root d' u off false h')
      cardinalOffsets d h)

theorem relaxRound_inv (g : GameMap) (cost : Int → Int → Nat) (root : Int × Int)
    (d : Dij) (h : DijInv root cost d) :
    DijInv root cost (relaxRound g cost d) := by
  unfold relaxRound
  exact foldl_preserves (DijInv root cost)
    (fun d' u h' => relaxCell_inv g cost root d' u h')
    (allCells g) d h

theorem relaxRounds_inv (g : GameMap) (cost : Int → Int → Nat) (root : Int × Int) :
    ∀ (n : Nat) (d : Dij), DijInv root cost d → DijInv root cost (relaxRounds g cost n d) := by
  intro n
  induction n with
  | zero => intro d h; exact h
  | succ m ih =>
    intro d h
    exact ih _ (relaxRound_inv g cost root d h)

theorem dijkstraRun_inv (g : GameMap) (cost : Int → Int → Nat) (root : Int × Int) :
    DijInv root cost (dijkstraRun g cost root) := by
  unfold dijkstraRun
  apply relaxRounds_inv
  refine ⟨by simp, rfl, ?_⟩
  intro c hc _
  exact ⟨by simp [hc], rfl⟩

theorem predWalk_ne_nil (pred : Int × Int → Option (Int × Int)) (fuel : Nat)
    (c : Int × Int) : predWalk pred fuel c ≠ [] := by
  cases fuel with
  | zero => simp [predWalk]
  | succ n =>
    unfold predWalk
    cases pred c <;> simp

theorem predWalk_tail_pred (pred : Int × Int → Option (Int × Int)) :
    ∀ (fuel : Nat) (c x : Int × Int),
      x ∈ (predWalk pred fuel c).drop 1 → pred x ≠ none := by
  intro fuel
  induction fuel with
  | zero => intro c x hx; simp [predWalk] at hx
  | succ n ih =>
    intro c x hx
    unfold predWalk at hx
    cases hp : pred c with
    | none =>
      rw [hp] at hx
      simp at hx
    | some p =>
      rw [hp] at hx
      have hx' : x ∈ (predWalk pred n p ++ [c]).drop 1 := hx
      obtain ⟨a, l, hal⟩ : ∃ a l, predWalk pred n p = a :: l := by
        cases hpw : predWalk pred n p with
        | nil => exact absurd hpw (predWalk_ne_nil pred n p)
        | cons a l => exact ⟨a, l, rfl⟩
      rw [hal] at hx'
      simp only [List.cons_append, List.drop_succ_cons, List.drop_zero] at hx'
      rw [List.mem_append] at hx'
      cases hx' with
      | inl hxl =>
        apply ih p x
        rw [hal]
        simpa using hxl
      | inr hxc =>
        rw [List.mem_singleton] at hxc
        rw [hxc, hp]
        simp

/-- C7: in the per-turn cost field a walkable cell occupied by one blocking
entity costs 11 = 1 + 10, an unoccupied walkable cell costs the base unit 1,
and a non-walkable cell costs 0; stepping into a base-cost cell costs 2
cardinally and 3 diagonally; non-walkable cells are never reached by the
shortest-path search; and the returned route never contains the acting
entity's starting cell. -/
theorem cost_field_and_route (s : GameState) (e : Entity)
    (cOcc cFree cWall : Int × Int)
    (hOccW : (s.game_map.tiles cOcc.1 cOcc.2).walkable = true)
    (hOcc1 : countBlockersAt s.game_map.entities cOcc.1 cOcc.2 = 1)
    (hFreeW : (s.game_map.tiles cFree.1 cFree.2).walkable = true)
    (hFree0 : countBlockersAt s.game_map.entities cFree.1 cFree.2 = 0)
    (hWallW : (s.game_map.tiles cWall.1 cWall.2).walkable = false)
    (hWallNe : cWall ≠ (e.x, e.y)) :
    costField s.game_map cOcc.1 cOcc.2 = 11
    ∧ costField s.game_map cFree.1 cFree.2 = 1
    ∧ costField s.game_map cWall.1 cWall.2 = 0
    ∧ edgeWeight (costField s.game_map) false cFree = 2
    ∧ edgeWeight (costField s.game_map) true cFree = 3
    ∧ (dijkstraRun s.game_map (costField s.game_map) (e.x, e.y)).dist cWall = none
    ∧ ∀ dest_x dest_y : Int, (e.x, e.y) ∉ getPathTo s e dest_x dest_y := by
  have hOcc : costField s.game_map cOcc.1 cOcc.2 = 11 := by
    rw [costField_formula, if_pos hOccW, hOcc1]
  have hFree : costField s.game_map cFree.1 cFree.2 = 1 := by
    rw [costField_formula, if_pos hFreeW, hFree0]
  have hWall : costField s.game_map cWall.1 cWall.2 = 0 := by
    rw [costField_formula, if_neg (by rw [hWallW]; exact Bool.false_ne_true)]
  have hinv := dijkstraRun_inv s.game_map (costField s.game_map) (e.x, e.y)
  refine ⟨hOcc, hFree, hWall, ?_, ?_, ?_, ?_⟩
  · unfold edgeWeight
    rw [hFree]
    rfl
  · unfold edgeWeight
    rw [hFree]
    rfl
  · exact (hinv.2.2 cWall hWallNe hWall).1
  · intro dest_x dest_y hmem
    exact predWalk_tail_pred _ _ _ _ hmem hinv.2.1

/-- C7 witness: on the 3 x 3 fixture with a wall at (0, 0) and a blocking
orc at (1, 1), cell (1, 1) costs 11, cell (2, 2) costs 1 (with step costs 2
and 3), the wall cell is never reached, and a route toward (0, 2) does not
contain the actor's start (2, 1). -/
theorem cost_field_and_route_witness :
    costField pathState.game_map 1 1 = 11
    ∧ costField pathState.game_map 2 2 = 1
    ∧ costField pathState.game_map 0 0 = 0
    ∧ edgeWeight (costField pathState.game_map) false (2, 2) = 2
    ∧ edgeWeight (costField pathState.game_map) true (2, 2) = 3
    ∧ (pathActor.x, pathActor.y) ∉ getPathTo pathState pathActor 0 2 := by
  have h := cost_field_and_route pathState pathActor (1, 1) (2, 2) (0, 0)
    (by decide) (by decide) (by decide) (by decide) (by decide) (by decide)
  exact ⟨h.1, h.2.1, h.2.2.1, h.2.2.2.1, h.2.2.2.2.1, h.2.2.2.2.2.2 0 2⟩

end Roguelike
